import Mathlib

/-!
Verification development for the Fidelity CSV extractor
(`beanhub_extract/extractors/fidelity.py`).

The Python source is shallowly embedded below: pure helper functions
(`beanify_account`, `parse_date`, `parse_to_decimal`) become Lean
functions; the CSV layer models `csv.DictReader` rows as lists of
fields; operations that can raise a Python exception return
`Except String _` whose error string names the exception.
-/

namespace Fidelity

/-! ## Character classes -/

/-- ASCII digit, the `[0-9]` character class (and the class used by the
`re` module for `[0-9]`). -/
def isAsciiDigit (c : Char) : Bool := '0' ≤ c && c ≤ '9'

/-- The whitespace characters of the regex class `[ \t\n\r\v\f]` used in
`beanify_account`, which is also the ASCII part of the set stripped by
Python `str.strip()` and accepted around numeric literals by `int()` and
`Decimal()`. -/
def isPyWhitespace (c : Char) : Bool :=
  c = ' ' || c = '\t' || c = '\n' || c = '\r' || c = '\x0b' || c = '\x0c'

/-- Membership in the character class `[a-zA-Z0-9-_:]` of the first
`re.sub` in `beanify_account` (letters, digits, hyphen, underscore,
colon; the `-` after `0-9` is a literal hyphen).  Note the class does
NOT contain the space character. -/
def allowedChar (c : Char) : Bool :=
  ('a' ≤ c && c ≤ 'z') || ('A' ≤ c && c ≤ 'Z') || isAsciiDigit c
    || c = '-' || c = '_' || c = ':'

/-! ## `beanify_account`

```python
def beanify_account(name: str) -> str:
    rst = re.sub(r"[^a-zA-Z0-9-_:]", "", name)
    rst = re.sub(r"[ \t\n\r\v\f]", " ", rst)
    rst = re.sub(r"[ ]{2,}", " ", rst)
    rst = rst.replace(" ", "-")
    return rst
```
-/

/-- `re.sub(r"[^a-zA-Z0-9-_:]", "", name)`: delete every character not in
the class. -/
def beanifySub1 (cs : List Char) : List Char := cs.filter allowedChar

/-- `re.sub(r"[ \t\n\r\v\f]", " ", rst)`: map each whitespace-class
character to a single space. -/
def beanifySub2 (cs : List Char) : List Char :=
  cs.map (fun c => if isPyWhitespace c then ' ' else c)

/-- `re.sub(r"[ ]{2,}", " ", rst)`: replace each maximal run of two or
more spaces by one space.  Runs of exactly one space are untouched, so
the effect is to collapse every maximal space run to a single space,
implemented one dropped space at a time. -/
def beanifySub3 : List Char → List Char
  | [] => []
  | [c] => [c]
  | c :: c2 :: cs =>
    if c = ' ' ∧ c2 = ' ' then beanifySub3 (c2 :: cs)
    else c :: beanifySub3 (c2 :: cs)

/-- `rst.replace(" ", "-")`. -/
def beanifySub4 (cs : List Char) : List Char :=
  cs.map (fun c => if c = ' ' then '-' else c)

/-- `beanify_account`: the four substitutions applied in source order. -/
def beanify_account (name : String) : String :=
  String.mk (beanifySub4 (beanifySub3 (beanifySub2 (beanifySub1 name.toList))))

/-! ## Python `int()` on strings

`int(s)` strips surrounding whitespace, accepts an optional sign and a
nonempty digit sequence in which single underscores may separate digits;
anything else raises `ValueError` (modelled as `none`).  (Unicode digits
are also accepted by Python; the inputs reaching `int` here are ASCII.) -/

def digitVal (c : Char) : Nat := c.toNat - '0'.toNat

/-- Parse the remaining characters of an integer literal after the first
digit: digits, where a single `_` may occur between two digits. -/
def pyIntDigits : Nat → List Char → Option Nat
  | acc, [] => some acc
  | acc, c :: cs =>
    if isAsciiDigit c then pyIntDigits (10 * acc + digitVal c) cs
    else if c = '_' then
      match cs with
      | d :: ds => if isAsciiDigit d then pyIntDigits (10 * acc + digitVal d) ds else none
      | [] => none
    else none

/-- Parse a nonempty unsigned digit sequence (with underscore rule). -/
def pyIntCore : List Char → Option Nat
  | [] => none
  | c :: cs => if isAsciiDigit c then pyIntDigits (digitVal c) cs else none

/-- Python `str.strip()` restricted to the ASCII whitespace set. -/
def pyStrip (cs : List Char) : List Char :=
  ((cs.dropWhile isPyWhitespace).reverse.dropWhile isPyWhitespace).reverse

/-- `int()` on a character sequence; `none` models `ValueError`. -/
def pyIntChars (cs : List Char) : Option Int :=
  match pyStrip cs with
  | '+' :: rest => (pyIntCore rest).map Int.ofNat
  | '-' :: rest => (pyIntCore rest).map (fun n => -(n : Int))
  | stripped => (pyIntCore stripped).map Int.ofNat

/-- `int(s)`; `none` models `ValueError`. -/
def pyInt (s : String) : Option Int := pyIntChars s.toList

/-- `date_str.split("/")` on the underlying characters (Python
`str.split` with an explicit separator: empty input gives `[""]`, and
separators at the ends produce empty parts). -/
def splitOnSlash : List Char → List (List Char)
  | [] => [[]]
  | c :: rest =>
    if c = '/' then [] :: splitOnSlash rest
    else
      match splitOnSlash rest with
      | [] => [[c]]
      | p :: ps => (c :: p) :: ps

/-! ## `datetime.date` and `parse_date`

```python
def parse_date(date_str: str) -> datetime.date:
    parts = date_str.split("/")
    return datetime.date(int(parts[-1]), *(map(int, parts[:-1])))
```
-/

structure PyDate where
  year : Nat
  month : Nat
  day : Nat
deriving DecidableEq

/-- Python `datetime.date` objects are always truthy (no `__bool__`). -/
def pyDateTruthy (_ : PyDate) : Bool := true

def isLeapYear (y : Int) : Bool :=
  y % 4 = 0 && (y % 100 ≠ 0 || y % 400 = 0)

def daysInMonth (y m : Int) : Int :=
  if m = 2 then (if isLeapYear y then 29 else 28)
  else if m = 4 ∨ m = 6 ∨ m = 9 ∨ m = 11 then 30
  else 31

/-- `datetime.date(y, m, d)`: `none` models the `ValueError` raised for
out-of-range components (`MINYEAR = 1`, `MAXYEAR = 9999`). -/
def mkDate (y m d : Int) : Option PyDate :=
  if 1 ≤ y ∧ y ≤ 9999 ∧ 1 ≤ m ∧ m ≤ 12 ∧ 1 ≤ d ∧ d ≤ daysInMonth y m then
    some ⟨y.toNat, m.toNat, d.toNat⟩
  else
    none

/-- `parse_date`.  With exactly three `/`-separated parts this is
`date(int(parts[2]), int(parts[0]), int(parts[1]))`; `none` models the
`ValueError` from `int` or `date`.  (With any other number of parts the
Python call raises `TypeError` from the arity mismatch — also modelled
as `none`; every call site has already matched a two-slash regex.) -/
def parse_date (s : String) : Option PyDate :=
  match splitOnSlash s.toList with
  | [m, d, y] => do
    let yi ← pyIntChars y
    let mi ← pyIntChars m
    let di ← pyIntChars d
    mkDate yi mi di
  | _ => none

/-! ## `decimal.Decimal` and `parse_to_decimal`

```python
def parse_to_decimal(number_str: str) -> decimal.Decimal:
    try:
        return decimal.Decimal(number_str)
    except (ValueError, decimal.InvalidOperation):
        pass
    return decimal.Decimal("0.0")
```

The `Decimal` string constructor strips surrounding whitespace, removes
every underscore, and then matches (case-insensitively)
`[-+]? ( (?=\d|\.\d) \d* (\.\d*)? (E[-+]?\d+)? | Inf(inity)? | s?NaN\d* )`;
failure raises `InvalidOperation` (caught by `parse_to_decimal`). -/

inductive PyDecimal where
  /-- Finite value `(-1)^sign * coeff * 10^exp`. -/
  | finite (sign : Bool) (coeff : Nat) (exp : Int)
  | inf (sign : Bool)
  | nan (sign : Bool) (signaling : Bool) (payload : Nat)
deriving DecidableEq

/-- `Decimal("0.0")`: sign 0, coefficient 0, exponent -1. -/
def pyDecimalZero : PyDecimal := .finite false 0 (-1)

def natOfDigits (cs : List Char) : Nat :=
  cs.foldl (fun acc c => 10 * acc + digitVal c) 0

/-- Parse the unsigned numeric alternative
`(?=\d|\.\d) \d* (\.\d*)? (E[-+]?\d+)?` (case-insensitive `E`),
anchored to consume the whole input. -/
def parseDecUnsigned (sign : Bool) (cs : List Char) : Option PyDecimal :=
  let intPart := cs.takeWhile isAsciiDigit
  let rest1 := cs.dropWhile isAsciiDigit
  let (fracPart, rest2) :=
    match rest1 with
    | '.' :: r => (r.takeWhile isAsciiDigit, r.dropWhile isAsciiDigit)
    | r => ([], r)
  let hadDot := match rest1 with | '.' :: _ => true | _ => false
  if intPart = [] ∧ (¬ hadDot ∨ fracPart = []) then none
  else
    let coeff := natOfDigits (intPart ++ fracPart)
    let mkFin (e : Int) : PyDecimal := .finite sign coeff (e - fracPart.length)
    match rest2 with
    | [] => some (mkFin 0)
    | e :: r =>
      if e = 'e' ∨ e = 'E' then
        match r with
        | '+' :: ds => if ds ≠ [] ∧ ds.all isAsciiDigit then some (mkFin (natOfDigits ds)) else none
        | '-' :: ds => if ds ≠ [] ∧ ds.all isAsciiDigit then some (mkFin (-(natOfDigits ds : Int))) else none
        | ds => if ds ≠ [] ∧ ds.all isAsciiDigit then some (mkFin (natOfDigits ds)) else none
      else none

/-- `decimal.Decimal(s)` for a string argument; `none` models
`InvalidOperation`. -/
def tryParseDecimal (s : String) : Option PyDecimal :=
  let cs := (pyStrip s.toList).filter (· ≠ '_')
  let (sign, body) :=
    match cs with
    | '+' :: r => (false, r)
    | '-' :: r => (true, r)
    | r => (false, r)
  let low := body.map Char.toLower
  if low = "inf".toList ∨ low = "infinity".toList then some (.inf sign)
  else
    match low with
    | 'n' :: 'a' :: 'n' :: ds =>
      if ds.all isAsciiDigit then some (.nan sign false (natOfDigits ds)) else none
    | 's' :: 'n' :: 'a' :: 'n' :: ds =>
      if ds.all isAsciiDigit then some (.nan sign true (natOfDigits ds)) else none
    | _ => parseDecUnsigned sign low

/-- `parse_to_decimal`: the `try/except` returns `Decimal("0.0")` when
the constructor raises `ValueError` or `InvalidOperation`. -/
def parse_to_decimal (s : String) : PyDecimal :=
  match tryParseDecimal s with
  | some d => d
  | none => pyDecimalZero

/-! ## The fixed column schema and `csv.DictReader` rows

The reader is created with `fieldnames=self.ALL_FIELDS`, `restkey=None`,
`restval=None`.  A parsed CSV record is modelled as a `List String` of
its fields.  `DictReader` zips the 18 fieldnames with the record: fields
past the 18th land under the `restkey` and are not consulted by name;
missing trailing fields get `restval = None`; records equal to `[]`
(blank lines) are skipped. -/

def DATE_FIELD : String := "Run Date"

def ALL_FIELDS : List String :=
  [DATE_FIELD, "Account", "Account Number", "Action", "Symbol", "Description",
   "Type", "Exchange Quantity", "Exchange Currency", "Currency", "Price",
   "Quantity", "Exchange Rate", "Commission", "Fees", "Accrued Interest",
   "Amount", "Settlement Date"]

def EXTRACTOR_NAME : String := "fidelity"

/-- `d.get(f)` / `d[f]` on the row dict built by `DictReader`: the value
is the record's field at the index of `f` in the schema, `none` for a
missing trailing field (Python `None`).  Because every schema key is
present in the dict, `d.get(f, default)` also returns this value — the
default is never used. -/
def dget (r : List String) (f : String) : Option String :=
  match ALL_FIELDS.findIdx? (· = f) with
  | some i => r.get? i
  | none => none

/-- The records the `DictReader` yields: blank records are skipped. -/
def readerRecords (file : List (List String)) : List (List String) :=
  file.filter (· ≠ [])

/-! ## The row filter of `_iter`

```python
for d in reader:
    date = d.get(self.DATE_FIELD, "")
    if re.match(r"^[0-9]{1,2}/[0-9]{1,2}/[0-9]{4}$", date):
        try:
            _ = parse_date(date)
            yield d
        except ValueError:
            pass
```
-/

/-- Match `[0-9]{1,2}/` at the head, returning the rest.  Greedy `{1,2}`
followed by `/` is deterministic since a digit is never `/`. -/
def matchMonthDaySlash : List Char → Option (List Char)
  | a :: '/' :: rest => if isAsciiDigit a then some rest else none
  | a :: b :: '/' :: rest => if isAsciiDigit a && isAsciiDigit b then some rest else none
  | _ => none

/-- Match `[0-9]{4}` against the entire remaining input. -/
def matchYear4End : List Char → Bool
  | [a, b, c, d] => isAsciiDigit a && isAsciiDigit b && isAsciiDigit c && isAsciiDigit d
  | _ => false

/-- The fully-anchored core of `^[0-9]{1,2}/[0-9]{1,2}/[0-9]{4}$`. -/
def reDateCore (cs : List Char) : Bool :=
  match matchMonthDaySlash cs with
  | some r1 =>
    match matchMonthDaySlash r1 with
    | some r2 => matchYear4End r2
    | none => false
  | none => false

/-- `re.match(r"^[0-9]{1,2}/[0-9]{1,2}/[0-9]{4}$", s)` is truthy.  In
Python, `$` matches at the end of the string or just before one newline
at the end of the string, so a single trailing `'\n'` is tolerated. -/
def reMatchDate (s : String) : Bool :=
  reDateCore s.toList
    || (s.toList.getLast? = some '\n' && reDateCore s.toList.dropLast)

/-- The `_iter` row filter: keep a record iff its date field matches the
regex and `parse_date` does not raise.  (The `none` branch is
unreachable for reader records, which are nonempty and hence carry a
string in the first field; on `None`, `re.match` would raise.) -/
def acceptRow (r : List String) : Bool :=
  match dget r DATE_FIELD with
  | some ds => reMatchDate ds && (parse_date ds).isSome
  | none => false

/-- The rows `_iter` yields from a parsed file. -/
def acceptedRows (file : List (List String)) : List (List String) :=
  (readerRecords file).filter acceptRow

/-! ## The seekable stream and the extractor object

`_create_reader` first rewinds the underlying stream
(`self.input_file.seek(os.SEEK_SET, 0)`), so every traversal reads the
whole file regardless of the current position. -/

structure CsvStream where
  records : List (List String)
  pos : Nat
deriving DecidableEq

def seekToStart (s : CsvStream) : CsvStream := ⟨s.records, 0⟩

/-- Read every remaining record, leaving the position at the end. -/
def streamReadAll (s : CsvStream) : List (List String) × CsvStream :=
  (s.records.drop s.pos, ⟨s.records, s.records.length⟩)

/-- `_create_reader` followed by draining the reader: rewind, then read
all records. -/
def createReaderRecords (s : CsvStream) : List (List String) × CsvStream :=
  streamReadAll (seekToStart s)

/-- One full traversal of `_iter`: the accepted rows, and the stream
state afterwards. -/
def iterRows (s : CsvStream) : List (List String) × CsvStream :=
  let (recs, s1) := createReaderRecords s
  ((recs.filter (· ≠ [])).filter acceptRow, s1)

/-- The extractor's state after `__init__`: the label for the file, the
`self.fieldnames` attribute, and the eager accepted-row count
`self._row_count`. -/
structure FidelityExtractor where
  filename : String
  fieldnames : Option (List String)
  row_count : Nat
deriving DecidableEq

/-- `__init__`: sets `fieldnames = None`, then drains `self._iter()`
once to count rows.  Draining creates the reader, and
`reader.fieldnames` returns the explicitly supplied `ALL_FIELDS`
without reading the file, so afterwards
`self.fieldnames = ALL_FIELDS`. -/
def FidelityExtractor.init (filename : String) (s : CsvStream) :
    FidelityExtractor × CsvStream :=
  let (rows, s1) := iterRows s
  (⟨filename, some ALL_FIELDS, rows.length⟩, s1)

/-- `detect`: `self.fieldnames == self.ALL_FIELDS` (the `try/except`
around it can never fire — `==` on a list does not raise). -/
def FidelityExtractor.detect (e : FidelityExtractor) : Bool :=
  e.fieldnames = some ALL_FIELDS

/-! ## SHA-256 (`hashlib.sha256`)

A bytewise implementation of FIPS 180-4 SHA-256 over `List Nat` (bytes),
with 32-bit words as `Nat` reduced mod `2^32`.  The round constants are
the first 32 fractional bits of the cube roots of the first 64 primes,
and the initial state the first 32 fractional bits of the square roots
of the first 8 primes, computed here from integer roots rather than
transcribed. -/

def M32 : Nat := 4294967296

def mask32 (x : Nat) : Nat := x % M32

def add32 (a b : Nat) : Nat := (a + b) % M32

def rotr32 (n x : Nat) : Nat := (x >>> n) ||| mask32 (x <<< (32 - n))

def not32 (x : Nat) : Nat := 4294967295 ^^^ x

def shaCh (x y z : Nat) : Nat := (x &&& y) ^^^ (not32 x &&& z)

def shaMaj (x y z : Nat) : Nat := (x &&& y) ^^^ (x &&& z) ^^^ (y &&& z)

def bigSigma0 (x : Nat) : Nat := rotr32 2 x ^^^ rotr32 13 x ^^^ rotr32 22 x

def bigSigma1 (x : Nat) : Nat := rotr32 6 x ^^^ rotr32 11 x ^^^ rotr32 25 x

def smallSigma0 (x : Nat) : Nat := rotr32 7 x ^^^ rotr32 18 x ^^^ (x >>> 3)

def smallSigma1 (x : Nat) : Nat := rotr32 17 x ^^^ rotr32 19 x ^^^ (x >>> 10)

/-- Binary search step for the integer cube root. -/
def icbrtAux (n : Nat) : Nat → Nat → Nat → Nat
  | 0, lo, _ => lo
  | fuel + 1, lo, hi =>
    if hi ≤ lo + 1 then lo
    else
      let mid := (lo + hi) / 2
      if mid ^ 3 ≤ n then icbrtAux n fuel mid hi else icbrtAux n fuel lo mid

/-- `⌊n^(1/3)⌋`. -/
def icbrt (n : Nat) : Nat := icbrtAux n 128 0 (n + 2)

/-- The first 64 primes. -/
def first64Primes : List Nat :=
  [2, 3, 5, 7, 11, 13, 17, 19, 23, 29, 31, 37, 41, 43, 47, 53,
   59, 61, 67, 71, 73, 79, 83, 89, 97, 101, 103, 107, 109, 113, 127, 131,
   137, 139, 149, 151, 157, 163, 167, 173, 179, 181, 191, 193, 197, 199, 211, 223,
   227, 229, 233, 239, 241, 251, 257, 263, 269, 271, 277, 281, 283, 293, 307, 311]

/-- SHA-256 round constants: fractional cube-root bits of the primes. -/
def shaK : List Nat := first64Primes.map (fun p => icbrt (p <<< 96) % M32)

/-- The eight 32-bit words of the running hash state. -/
structure Hash8 where
  h0 : Nat
  h1 : Nat
  h2 : Nat
  h3 : Nat
  h4 : Nat
  h5 : Nat
  h6 : Nat
  h7 : Nat
deriving DecidableEq

/-- Initial hash: fractional square-root bits of the first 8 primes. -/
def shaInitH : Hash8 :=
  ⟨Nat.sqrt (2 <<< 64) % M32, Nat.sqrt (3 <<< 64) % M32,
   Nat.sqrt (5 <<< 64) % M32, Nat.sqrt (7 <<< 64) % M32,
   Nat.sqrt (11 <<< 64) % M32, Nat.sqrt (13 <<< 64) % M32,
   Nat.sqrt (17 <<< 64) % M32, Nat.sqrt (19 <<< 64) % M32⟩

/-- Big-endian bytes of `n` in `w` bytes. -/
def bytesBE (w n : Nat) : List Nat :=
  (List.range w).map (fun i => (n >>> (8 * (w - 1 - i))) % 256)

/-- Append `0x80`, zero padding to 56 mod 64, and the 64-bit bit length. -/
def padMessage (msg : List Nat) : List Nat :=
  let L := msg.length
  let k := (55 + 64 - (L % 64)) % 64
  msg ++ 0x80 :: List.replicate k 0 ++ bytesBE 8 (8 * L)

/-- Big-endian 32-bit words from bytes. -/
def bytesToWords : List Nat → List Nat
  | b0 :: b1 :: b2 :: b3 :: rest => (((b0 * 256 + b1) * 256 + b2) * 256 + b3) :: bytesToWords rest
  | _ => []

/-- Split a word list into 16-word blocks. -/
def toBlocks : List Nat → List (List Nat)
  | [] => []
  | w :: ws => (w :: ws).take 16 :: toBlocks ((w :: ws).drop 16)
termination_by ws => ws.length
decreasing_by
  simp only [List.length_drop, List.length_cons]
  omega

/-- Extend a 16-word block to the 64-word message schedule. -/
def extendSchedule : Nat → List Nat → List Nat
  | 0, w => w
  | fuel + 1, w =>
    let t := w.length
    let nw := add32 (add32 (smallSigma1 (w.getD (t - 2) 0)) (w.getD (t - 7) 0))
                    (add32 (smallSigma0 (w.getD (t - 15) 0)) (w.getD (t - 16) 0))
    extendSchedule fuel (w ++ [nw])

/-- One compression round. -/
def shaRound (st : Hash8) (kw : Nat × Nat) : Hash8 :=
  let t1 := add32 st.h7 (add32 (bigSigma1 st.h4)
             (add32 (shaCh st.h4 st.h5 st.h6) (add32 kw.1 kw.2)))
  let t2 := add32 (bigSigma0 st.h0) (shaMaj st.h0 st.h1 st.h2)
  ⟨add32 t1 t2, st.h0, st.h1, st.h2, add32 st.h3 t1, st.h4, st.h5, st.h6⟩

/-- Compress one 512-bit block into the running state. -/
def compressBlock (H : Hash8) (block : List Nat) : Hash8 :=
  let W := extendSchedule 48 block
  let st := (shaK.zip W).foldl shaRound H
  ⟨add32 H.h0 st.h0, add32 H.h1 st.h1, add32 H.h2 st.h2, add32 H.h3 st.h3,
   add32 H.h4 st.h4, add32 H.h5 st.h5, add32 H.h6 st.h6, add32 H.h7 st.h7⟩

/-- The SHA-256 digest state of a byte message. -/
def sha256digest (msg : List Nat) : Hash8 :=
  (toBlocks (bytesToWords (padMessage msg))).foldl compressBlock shaInitH

def hexDigitChar (n : Nat) : Char :=
  if n < 10 then Char.ofNat ('0'.toNat + n) else Char.ofNat ('a'.toNat + (n - 10))

/-- Lowercase hex of one 32-bit word, 8 characters. -/
def hexWord (x : Nat) : List Char :=
  (List.range 8).map (fun i => hexDigitChar ((x >>> (4 * (7 - i))) % 16))

/-- `hashlib.sha256(msg).hexdigest()`. -/
def sha256hex (msg : List Nat) : String :=
  let h := sha256digest msg
  String.mk (hexWord h.h0 ++ hexWord h.h1 ++ hexWord h.h2 ++ hexWord h.h3 ++
             hexWord h.h4 ++ hexWord h.h5 ++ hexWord h.h6 ++ hexWord h.h7)

/-- UTF-8 encoding of one code point (`str.encode("utf8")` per char). -/
def utf8Char (c : Char) : List Nat :=
  let n := c.toNat
  if n < 0x80 then [n]
  else if n < 0x800 then [0xc0 + n / 64, 0x80 + n % 64]
  else if n < 0x10000 then [0xe0 + n / 4096, 0x80 + (n / 64) % 64, 0x80 + n % 64]
  else [0xf0 + n / 262144, 0x80 + (n / 4096) % 64, 0x80 + (n / 64) % 64, 0x80 + n % 64]

/-- `s.encode("utf8")` as a byte list. -/
def utf8Bytes (s : String) : List Nat :=
  (s.toList.map utf8Char).flatten

/-! ## `fingerprint`

```python
def fingerprint(self) -> Fingerprint | None:
    it = self._iter()
    try:
        row = next(it)
    except StopIteration:
        return None
    hash = hashlib.sha256()
    for field in self.fieldnames:
        hash.update(row[field].encode("utf8"))
    date_value = parse_date(row["Run Date"])
    if not date_value:
        date_value = datetime.date(1970, 1, 1)
    return Fingerprint(starting_date=date_value, first_row_hash=hash.hexdigest())
```
-/

structure Fingerprint where
  starting_date : PyDate
  first_row_hash : String
deriving DecidableEq

/-- The `hash.update(row[field].encode("utf8"))` loop: collect the row's
value for each field in order; a `None` value raises `AttributeError`
(`None` has no `.encode`), modelled as the error string. -/
def collectFieldValues (fns : List String) (r : List String) : Except String (List String) :=
  match fns with
  | [] => .ok []
  | f :: rest =>
    match dget r f with
    | none => .error ("AttributeError: NoneType has no attribute encode (field " ++ f ++ ")")
    | some v =>
      match collectFieldValues rest r with
      | .error e => .error e
      | .ok vs => .ok (v :: vs)

/-- The body of `fingerprint` on the accepted-row list of one `_iter`
traversal, given the `self.fieldnames` attribute.  Sequencing `update`
calls hashes the concatenation of the encoded values.  The
`if not date_value` fallback is kept although a `datetime.date` is
always truthy.  An uncaught `ValueError` from `parse_date` is an error
result (unreachable: the first accepted row has a parseable date). -/
def fingerprintRows (fns : List String) (rows : List (List String)) :
    Except String (Option Fingerprint) :=
  match rows.head? with
  | none => .ok none
  | some row =>
    match collectFieldValues fns row with
    | .error e => .error e
    | .ok vals =>
      let digest := sha256hex ((vals.map utf8Bytes).flatten)
      match dget row DATE_FIELD with
      | none => .error "TypeError: parse_date on None"
      | some ds =>
        match parse_date ds with
        | none => .error "ValueError: parse_date"
        | some d =>
          let date_value := if pyDateTruthy d then d else ⟨1970, 1, 1⟩
          .ok (some ⟨date_value, digest⟩)

/-- `fingerprint()` of an extractor state over the file's parsed
records (a fresh `_iter` traversal; iterating `self.fieldnames = None`
would raise `TypeError`, but after `__init__` it is always the
schema). -/
def fingerprintOf (e : FidelityExtractor) (file : List (List String)) :
    Except String (Option Fingerprint) :=
  match e.fieldnames with
  | none => .error "TypeError: NoneType is not iterable"
  | some fns => fingerprintRows fns (acceptedRows file)

/-! ## `__call__`: transaction synthesis

One `Transaction` per accepted row.  Fields whose raw value can be
Python `None` without raising keep type `Option String`; the operations
`beanify_account` (via `re.sub`), `Decimal(...)` and `[-4:]` raise
`TypeError` on `None`, modelled as error results, in source order. -/

structure Transaction where
  extractor : String
  file : String
  lineno : Nat
  reversed_lineno : Int
  source_account : String
  date : PyDate
  post_date : PyDate
  desc : Option String
  bank_desc : Option String
  amount : PyDecimal
  currency : Option String
  type : Option String
  last_four_digits : String
  extra : List String
deriving DecidableEq

/-- Python `s[-4:]`: the last four characters (all of `s` if shorter). -/
def takeLast4 (s : String) : String :=
  String.mk (s.toList.drop (s.toList.length - 4))

/-- Build the `Transaction` for accepted row `r` at 0-based accepted
index `i`, with `count = self._row_count`.  The nested matches model,
in evaluation order, each operation of the loop body that can raise:
`parse_date(row.get("Run Date", "01/01/1970"))` (the schema key is
always present, so the dict value — possibly `None` — is used, never
the default), `beanify_account(row.get("Account", ""))`,
`parse_to_decimal(row.get("Amount", "0.0"))` (a `None` value reaches
`Decimal(None)`, whose `TypeError` the `except` clause does not catch),
and `row.get("Account Number", "")[-4:]`. -/
def makeTxn (filename : String) (count : Nat) (i : Nat) (r : List String) :
    Except String Transaction :=
  match dget r DATE_FIELD with
  | none => .error "TypeError: parse_date on None"
  | some ds =>
    match parse_date ds with
    | none => .error "ValueError: parse_date"
    | some run_date =>
      match dget r "Account" with
      | none => .error "TypeError: re.sub expected string, got None"
      | some acct =>
        match dget r "Amount" with
        | none => .error "TypeError: conversion from NoneType to Decimal"
        | some amt =>
          match dget r "Account Number" with
          | none => .error "TypeError: NoneType is not subscriptable"
          | some acctNum =>
            .ok { extractor := EXTRACTOR_NAME
                  file := filename
                  lineno := i + 1
                  reversed_lineno := (i : Int) - (count : Int)
                  source_account := beanify_account acct
                  date := run_date
                  post_date := run_date
                  desc := dget r "Action"
                  bank_desc := dget r "Description"
                  amount := parse_to_decimal amt
                  currency := dget r "Currency"
                  type := dget r "Type"
                  last_four_digits := takeLast4 acctNum
                  extra := r }

/-- Drain the `__call__` generator over the accepted rows, starting at
0-based index `i`: an error means the traversal raises there (after
having yielded the earlier transactions). -/
def extractTxns (filename : String) (count : Nat) : Nat → List (List String) →
    Except String (List Transaction)
  | _, [] => .ok []
  | i, r :: rest =>
    match makeTxn filename count i r with
    | .error e => .error e
    | .ok t =>
      match extractTxns filename count (i + 1) rest with
      | .error e => .error e
      | .ok ts => .ok (t :: ts)

/-- `list(extractor())` over the file's parsed records. -/
def extractOf (e : FidelityExtractor) (file : List (List String)) :
    Except String (List Transaction) :=
  extractTxns e.filename e.row_count 0 (acceptedRows file)

/-- The stream-level `__call__`: a fresh `_iter` rewinds the stream and
re-derives the rows, then the generator is drained. -/
def callRun (e : FidelityExtractor) (s : CsvStream) :
    Except String (List Transaction) × CsvStream :=
  let (rows, s1) := iterRows s
  (extractTxns e.filename e.row_count 0 rows, s1)

/-! ## Spec-side definitions

Definitions taken from the specification's words (not from the source),
used to compare spec statements with the code's behaviour. -/

/-- Modelled from the spec: the "parsed header/fieldname sequence" of a
file, read as its first record (the header row of the export). -/
def specFileHeader (file : List (List String)) : Option (List String) :=
  file.head?

/-- Modelled from the spec: the "anchored pattern of 1-2 digit month,
slash, 1-2 digit day, slash, 4-digit year", with nothing before or
after it. -/
def specStrictDatePattern (s : String) : Bool :=
  reDateCore s.toList

/-! ## Sample data for concrete witnesses -/

/-- A full 18-column activity row as exported by the brokerage. -/
def sampleRow18 : List String :=
  ["1/5/2024", "Roth IRA  ****1234", "Z123456789", "BUY", "AAPL", "APPLE INC",
   "Cash", "", "", "USD", "185.5", "1", "", "0", "0", "0", "-185.50", "1/8/2024"]

/-- The same row truncated to 17 columns (missing `Settlement Date`). -/
def sampleRow17 : List String :=
  ["1/5/2024", "Roth IRA  ****1234", "Z123456789", "BUY", "AAPL", "APPLE INC",
   "Cash", "", "", "USD", "185.5", "1", "", "0", "0", "0", "-185.50"]

/-- A small export: header row, one data row, one disclaimer row. -/
def sampleFile : List (List String) :=
  [ALL_FIELDS, sampleRow18, ["Disclaimer text here"]]

/-- A second export with the same first data row and no trailing rows. -/
def sampleFile2 : List (List String) := [sampleRow18]

def sampleExtractor : FidelityExtractor :=
  (FidelityExtractor.init "f.csv" ⟨sampleFile, 0⟩).1

def sampleExtractor2 : FidelityExtractor :=
  (FidelityExtractor.init "g.csv" ⟨sampleFile2, 0⟩).1

def defaultTxn : Transaction :=
  ⟨"", "", 0, 0, "", ⟨1970, 1, 1⟩, ⟨1970, 1, 1⟩, none, none, pyDecimalZero,
   none, none, "", []⟩

/-- The transactions the sample extraction yields. -/
def sampleTxns : List Transaction :=
  (extractOf sampleExtractor sampleFile).toOption.getD []

/-- The first sample transaction. -/
def sampleTxn0 : Transaction := sampleTxns.getD 0 defaultTxn

/-! ## Helper lemmas -/

theorem iterRows_fst (recs : List (List String)) (p : Nat) :
    (iterRows ⟨recs, p⟩).1 = acceptedRows recs := rfl

theorem dget_run_date (r : List String) : dget r DATE_FIELD = r.get? 0 := rfl

theorem dget_account (r : List String) : dget r "Account" = r.get? 1 := rfl

theorem dget_account_number (r : List String) : dget r "Account Number" = r.get? 2 := rfl

theorem dget_amount (r : List String) : dget r "Amount" = r.get? 16 := rfl

theorem dget_settlement (r : List String) : dget r "Settlement Date" = r.get? 17 := rfl

theorem dget_isSome_of_index {r : List String} {f : String} {i : Nat}
    (hidx : dget r f = r.get? i) (hlt : i < r.length) : (dget r f).isSome := by
  rw [hidx, List.get?_eq_get hlt]
  rfl

/-- A row with at least 18 fields has a (string) value for every schema
field. -/
theorem dget_isSome_of_len {r : List String} (hlen : 18 ≤ r.length) :
    ∀ f ∈ ALL_FIELDS, (dget r f).isSome := by
  intro f hf
  fin_cases hf <;> exact dget_isSome_of_index (by rfl) (by omega)

theorem allowedChar_not_whitespace {c : Char} (h : allowedChar c = true) :
    isPyWhitespace c = false := by
  by_contra hw
  simp only [Bool.not_eq_false, isPyWhitespace, Bool.or_eq_true, decide_eq_true_eq] at hw
  rcases hw with ((((h1 | h1) | h1) | h1) | h1) | h1 <;> subst h1 <;>
    simp [allowedChar, isAsciiDigit] at h

theorem mem_beanifySub1 {c : Char} {cs : List Char} (h : c ∈ beanifySub1 cs) :
    allowedChar c = true :=
  (List.mem_filter.mp h).2

theorem beanifySub2_eq_self {cs : List Char}
    (h : ∀ c ∈ cs, isPyWhitespace c = false) : beanifySub2 cs = cs := by
  induction cs with
  | nil => rfl
  | cons c rest ih =>
    have hc := h c (List.mem_cons_self _ _)
    have ih2 := ih (fun x hx => h x (List.mem_cons_of_mem _ hx))
    simp only [beanifySub2, List.map_cons] at ih2 ⊢
    rw [hc]
    simp [ih2]

theorem beanifySub3_eq_self {cs : List Char} (h : ∀ c ∈ cs, c ≠ ' ') :
    beanifySub3 cs = cs := by
  induction cs with
  | nil => rfl
  | cons c rest ih =>
    cases rest with
    | nil => rfl
    | cons c2 rest2 =>
      have hc : c ≠ ' ' := h c (by simp)
      have ih2 := ih (fun x hx => h x (List.mem_cons_of_mem _ hx))
      rw [beanifySub3, if_neg (by simp [hc]), ih2]

theorem beanifySub4_eq_self {cs : List Char} (h : ∀ c ∈ cs, c ≠ ' ') :
    beanifySub4 cs = cs := by
  induction cs with
  | nil => rfl
  | cons c rest ih =>
    have hc := h c (List.mem_cons_self _ _)
    have ih2 := ih (fun x hx => h x (List.mem_cons_of_mem _ hx))
    simp only [beanifySub4, List.map_cons] at ih2 ⊢
    simp [hc, ih2]

/-- After the first substitution no whitespace (in particular no space)
remains, so the remaining three substitutions do nothing. -/
theorem beanify_account_eq_sub1 (s : String) :
    beanify_account s = String.mk (beanifySub1 s.toList) := by
  unfold beanify_account
  have hnw : ∀ c ∈ beanifySub1 s.toList, isPyWhitespace c = false :=
    fun c hc => allowedChar_not_whitespace (mem_beanifySub1 hc)
  have hns : ∀ c ∈ beanifySub1 s.toList, c ≠ ' ' := by
    intro c hc
    have := hnw c hc
    intro he
    subst he
    simp [isPyWhitespace] at this
  rw [beanifySub2_eq_self hnw, beanifySub3_eq_self hns, beanifySub4_eq_self hns]

theorem beanifySub1_idem (cs : List Char) :
    beanifySub1 (beanifySub1 cs) = beanifySub1 cs := by
  simp [beanifySub1, List.filter_filter]

theorem collectFieldValues_ok_iff (fns : List String) (r : List String) :
    (∃ vs, collectFieldValues fns r = .ok vs) ↔ ∀ f ∈ fns, (dget r f).isSome := by
  induction fns with
  | nil => simp [collectFieldValues]
  | cons f rest ih =>
    constructor
    · rintro ⟨vs, hvs⟩ g hg
      unfold collectFieldValues at hvs
      rcases hf : dget r f with _ | v
      · rw [hf] at hvs; exact absurd hvs (by simp)
      · rcases List.mem_cons.mp hg with hg | hg
        · subst hg; simp [hf]
        · rw [hf] at hvs
          rcases hrest : collectFieldValues rest r with e | ws
          · rw [hrest] at hvs; exact absurd hvs (by simp)
          · exact ih.mp ⟨ws, hrest⟩ g hg
    · intro hall
      rcases hf : dget r f with _ | v
      · have := hall f (by simp)
        rw [hf] at this; simp at this
      · rcases ih.mpr (fun g hg => hall g (by simp [hg])) with ⟨ws, hws⟩
        exact ⟨v :: ws, by simp [collectFieldValues, hf, hws]⟩

theorem collectFieldValues_error_of_missing {fns r} {f : String} (hf : f ∈ fns)
    (hnone : dget r f = none) : ∃ e, collectFieldValues fns r = .error e := by
  rcases hres : collectFieldValues fns r with e | vs
  · exact ⟨e, rfl⟩
  · have := (collectFieldValues_ok_iff fns r).mp ⟨vs, hres⟩ f hf
    rw [hnone] at this
    simp at this

theorem extractTxns_ok_length {fname count} :
    ∀ {i rows ts}, extractTxns fname count i rows = .ok ts → ts.length = rows.length := by
  intro i rows
  induction rows generalizing i with
  | nil => intro ts h; simp [extractTxns] at h; simp [← h]
  | cons r rest ih =>
    intro ts h
    unfold extractTxns at h
    rcases h1 : makeTxn fname count i r with e | t
    · rw [h1] at h; exact absurd h (by simp)
    · rw [h1] at h
      rcases h2 : extractTxns fname count (i + 1) rest with e | ts2
      · rw [h2] at h; exact absurd h (by simp)
      · rw [h2] at h
        simp only [Except.ok.injEq] at h
        subst h
        simp [ih h2]

theorem makeTxn_ok_numbering {fname count i r t}
    (h : makeTxn fname count i r = .ok t) :
    t.lineno = i + 1 ∧ t.reversed_lineno = (i : Int) - (count : Int) := by
  unfold makeTxn at h
  repeat' split at h
  all_goals first
    | simp only [reduceCtorEq] at h
    | (simp only [Except.ok.injEq] at h; subst h; exact ⟨rfl, rfl⟩)

theorem extractTxns_ok_numbering {fname count} :
    ∀ {i rows ts}, extractTxns fname count i rows = .ok ts →
      ∀ {k t}, ts.get? k = some t →
        t.lineno = i + k + 1 ∧ t.reversed_lineno = ((i + k : Nat) : Int) - (count : Int) := by
  intro i rows
  induction rows generalizing i with
  | nil =>
    intro ts h k t hk
    simp [extractTxns] at h
    subst h
    simp at hk
  | cons r rest ih =>
    intro ts h k t hk
    unfold extractTxns at h
    rcases h1 : makeTxn fname count i r with e | t0 <;> rw [h1] at h
    · exact absurd h (by simp)
    rcases h2 : extractTxns fname count (i + 1) rest with e | ts2 <;> rw [h2] at h
    · exact absurd h (by simp)
    simp only [Except.ok.injEq] at h
    subst h
    cases k with
    | zero =>
      simp only [List.get?_cons_zero, Option.some.injEq] at hk
      subst hk
      have := makeTxn_ok_numbering h1
      simpa using this
    | succ k2 =>
      simp only [List.get?_cons_succ] at hk
      have := ih h2 hk
      constructor
      · omega
      · rw [this.2]; push_cast; ring

theorem acceptRow_of_head_accepted {file r}
    (h : (acceptedRows file).head? = some r) : acceptRow r = true := by
  have hmem : r ∈ acceptedRows file := by
    cases hrows : acceptedRows file with
    | nil => rw [hrows] at h; simp at h
    | cons a t =>
      rw [hrows] at h
      simp only [List.head?_cons, Option.some.injEq] at h
      subst h
      simp
  exact (List.mem_filter.mp hmem).2

theorem acceptRow_date {r} (h : acceptRow r = true) :
    ∃ ds d, dget r DATE_FIELD = some ds ∧ reMatchDate ds = true ∧
      parse_date ds = some d := by
  unfold acceptRow at h
  rcases h0 : dget r DATE_FIELD with _ | ds <;> rw [h0] at h
  · simp at h
  · simp only [Bool.and_eq_true, Option.isSome_iff_exists] at h
    rcases h.2 with ⟨d, hd⟩
    exact ⟨ds, d, rfl, h.1, hd⟩

theorem sha256hex_length (msg : List Nat) : (sha256hex msg).length = 64 := by
  simp [sha256hex, hexWord, String.length]

/-! ## Claim C1 -/

/-- C1 counterexample: a file whose header row is not the canonical
18-column schema for which `detect()` nevertheless returns true.  The
fieldname sequence is supplied to the reader, never parsed from the
file, so the comparison in `detect` cannot fail. -/
theorem claim1_counterexample :
    specFileHeader [["Totally", "Wrong", "Header"]] ≠ some ALL_FIELDS ∧
    FidelityExtractor.detect
      ((FidelityExtractor.init "f" ⟨[["Totally", "Wrong", "Header"]], 0⟩).1) = true := by
  constructor
  · decide
  · rfl

/-- C1 (amended): `detect()` always returns true for every input file,
because `reader.fieldnames` returns the explicitly imposed `ALL_FIELDS`
without reading the file, so `self.fieldnames == self.ALL_FIELDS` is an
equality of the canonical schema with itself. -/
theorem claim1_detect_always_true (label : String) (recs : List (List String))
    (pos : Nat) :
    FidelityExtractor.detect ((FidelityExtractor.init label ⟨recs, pos⟩).1) = true := by
  rfl

/-! ## Claim C2 -/

/-- C2 counterexample: the claimed example fails — the space character
is outside `[a-zA-Z0-9-_:]`, so step 1 deletes spaces and the result is
"RothIRA1234", not "Roth-IRA-1234". -/
theorem claim2_counterexample :
    beanify_account "Roth IRA  ****1234" ≠ "Roth-IRA-1234" ∧
    beanify_account "Roth IRA  ****1234" = "RothIRA1234" := by
  constructor
  · decide
  · decide

/-- C2 (amended): `beanify_account` applies, in order, (1) strip every
character outside `[A-Za-z0-9-_:]`, (2) map whitespace-class characters
to spaces, (3) collapse runs of 2+ spaces, (4) replace spaces with
hyphens; but step 1 already deletes every whitespace character, so
steps 2-4 are identities, the transform equals step 1 alone, and
"Roth IRA  ****1234" maps to "RothIRA1234" while "My  Acct\t#1" maps
to "MyAcct1". -/
theorem claim2_beanify_steps :
    (∀ s : String, beanify_account s =
        String.mk (beanifySub4 (beanifySub3 (beanifySub2 (beanifySub1 s.toList))))) ∧
    (∀ s : String, beanify_account s = String.mk (beanifySub1 s.toList)) ∧
    beanify_account "Roth IRA  ****1234" = "RothIRA1234" ∧
    beanify_account "My  Acct\t#1" = "MyAcct1" := by
  refine ⟨fun s => rfl, beanify_account_eq_sub1, by decide, by decide⟩

/-! ## Claim C9 -/

/-- C9: `beanify_account` is idempotent.  Its output contains only
characters of the allowed class, so the first substitution leaves it
unchanged and the whitespace passes have nothing to do. -/
theorem claim9_beanify_idempotent (s : String) :
    beanify_account (beanify_account s) = beanify_account s := by
  rw [beanify_account_eq_sub1 s, beanify_account_eq_sub1]
  exact congrArg String.mk (beanifySub1_idem s.toList)

/-! ## Claim C7 -/

/-- C7: `parse_to_decimal` is total (the only exceptions `Decimal` can
raise on a string, `ValueError`/`InvalidOperation`, are caught): on any
string the constructor rejects it returns exactly `Decimal("0.0")`, and
on a well-formed decimal string it returns the exact parse; in
particular the empty string yields the zero value. -/
theorem claim7_parse_to_decimal :
    (∀ s : String, tryParseDecimal s = none → parse_to_decimal s = pyDecimalZero) ∧
    (∀ (s : String) (d : PyDecimal), tryParseDecimal s = some d → parse_to_decimal s = d) ∧
    parse_to_decimal "" = pyDecimalZero := by
  refine ⟨fun s h => ?_, fun s d h => ?_, by decide⟩
  · unfold parse_to_decimal
    rw [h]
  · unfold parse_to_decimal
    rw [h]

/-- C7 witness: the theorem applied at the concrete inputs "abc"
(rejected, hence zero) and "1.5" (parsed exactly). -/
theorem claim7_witness :
    parse_to_decimal "abc" = pyDecimalZero ∧
    parse_to_decimal "1.5" = PyDecimal.finite false 15 (-1) :=
  ⟨claim7_parse_to_decimal.1 "abc" (by decide),
   claim7_parse_to_decimal.2.1 "1.5" (PyDecimal.finite false 15 (-1)) (by decide)⟩

/-! ## Claim C6 -/

/-- C6 counterexample: a row whose date field carries one trailing
newline.  It does not match the fully anchored `M/D/YYYY` pattern the
claim describes, yet the row is accepted: Python `$` also matches just
before a newline at the end of the string, and `int("2024\n")` strips
the whitespace. -/
theorem claim6_counterexample :
    acceptRow ["1/2/2024\n"] = true ∧
    specStrictDatePattern "1/2/2024\n" = false := by
  constructor
  · decide
  · decide

/-- C6 (amended): a raw CSV row is accepted by the row filter iff its
date column matches the 1-2 digit month / 1-2 digit day / 4-digit year
pattern anchored up to an optional single trailing newline (Python `$`
semantics) AND the value constructs a real calendar date; rows failing
either check are silently dropped (the filter is a total function — no
error is surfaced).  Month 13 and day 32 match the pattern but fail
the calendar check. -/
theorem claim6_row_filter :
    (∀ (r : List String) (ds : String), dget r DATE_FIELD = some ds →
        (acceptRow r = true ↔
          (reMatchDate ds = true ∧ (parse_date ds).isSome = true))) ∧
    acceptRow ["13/1/2024"] = false ∧
    acceptRow ["1/32/2024"] = false ∧
    acceptRow ["1/5/2024"] = true ∧
    reMatchDate "13/1/2024" = true ∧
    reMatchDate "1/32/2024" = true := by
  refine ⟨fun r ds h => ?_, by decide, by decide, by decide, by decide, by decide⟩
  unfold acceptRow
  rw [h]
  simp [Bool.and_eq_true]

/-- C6 witness: the characterization applied at the concrete singleton
row with date "1/5/2024". -/
theorem claim6_witness :
    acceptRow ["1/5/2024"] = true ↔
      (reMatchDate "1/5/2024" = true ∧ (parse_date "1/5/2024").isSome = true) :=
  claim6_row_filter.1 ["1/5/2024"] "1/5/2024" (by decide)

/-! ## Claim C8 -/

/-- C8: for a file with zero accepted rows, `fingerprint()` returns the
absent value (`None`) and the transaction generator yields the empty
sequence; neither is an error. -/
theorem claim8_zero_accepted (label : String) (file : List (List String)) (pos : Nat)
    (h : acceptedRows file = []) :
    fingerprintOf ((FidelityExtractor.init label ⟨file, pos⟩).1) file = .ok none ∧
    extractOf ((FidelityExtractor.init label ⟨file, pos⟩).1) file = .ok [] := by
  constructor
  · show fingerprintRows ALL_FIELDS (acceptedRows file) = .ok none
    rw [h]
    rfl
  · show extractTxns label _ 0 (acceptedRows file) = .ok []
    rw [h]
    rfl

/-- C8 witness: a one-record file whose only row is a non-date
disclaimer line: nothing is accepted, the fingerprint is absent and the
extraction is empty. -/
theorem claim8_witness :
    fingerprintOf ((FidelityExtractor.init "f" ⟨[["hello"]], 0⟩).1) [["hello"]] = .ok none ∧
    extractOf ((FidelityExtractor.init "f" ⟨[["hello"]], 0⟩).1) [["hello"]] = .ok [] :=
  claim8_zero_accepted "f" [["hello"]] 0 (by decide)

/-! ## Claim C3 -/

/-- C3 counterexample: a file whose single (accepted) row has one
column.  The reader supplies absent values for the 17 missing fields,
but `fingerprint()` raises `AttributeError` (calling `.encode` on
`None`) and the transaction generator raises `TypeError` (passing
`None` to `re.sub`), contradicting "complete without an exception". -/
theorem claim3_counterexample :
    acceptRow ["1/5/2024"] = true ∧
    fingerprintOf ((FidelityExtractor.init "f" ⟨[["1/5/2024"]], 0⟩).1) [["1/5/2024"]] =
      .error "AttributeError: NoneType has no attribute encode (field Account)" ∧
    extractOf ((FidelityExtractor.init "f" ⟨[["1/5/2024"]], 0⟩).1) [["1/5/2024"]] =
      .error "TypeError: re.sub expected string, got None" := by
  refine ⟨by decide, by rfl, by rfl⟩

/-- C3 (amended): the schema reader itself never raises on a
column-count mismatch — missing trailing fields take the absent value
(`None`), as the reader's `dget` shows — but the downstream stages do
not tolerate absent values: on an accepted row the transaction
generator succeeds iff the row has at least 17 columns (with fewer, the
absent `Account`, `Amount` or `Account Number` value reaches `re.sub`,
`Decimal(...)` or slicing, which raise `TypeError` — the amount
zero-default applies only to string inputs), and the fingerprint value
collection raises on a first row with fewer than 18 columns. -/
theorem claim3_short_rows (fname : String) (count i : Nat) (r : List String)
    (hacc : acceptRow r = true) :
    (r.length < 18 → dget r "Settlement Date" = none) ∧
    (17 ≤ r.length → (makeTxn fname count i r).isOk = true) ∧
    (r.length < 17 → (makeTxn fname count i r).isOk = false) ∧
    (r.length < 18 → (collectFieldValues ALL_FIELDS r).isOk = false) := by
  obtain ⟨ds, d, h0, hre, hpd⟩ := acceptRow_date hacc
  refine ⟨fun hlen => ?_, fun hlen => ?_, fun hlen => ?_, fun hlen => ?_⟩
  · rw [dget_settlement]
    exact List.get?_eq_none.mpr (by omega)
  · have h1 : dget r "Account" = some (r.get ⟨1, by omega⟩) := by
      rw [dget_account]; exact List.get?_eq_get (by omega)
    have h2 : dget r "Amount" = some (r.get ⟨16, by omega⟩) := by
      rw [dget_amount]; exact List.get?_eq_get (by omega)
    have h3 : dget r "Account Number" = some (r.get ⟨2, by omega⟩) := by
      rw [dget_account_number]; exact List.get?_eq_get (by omega)
    simp only [makeTxn, h0, hpd, h1, h2, h3, Except.isOk, Except.toBool]
  · by_cases hl : r.length ≤ 1
    · have h1 : dget r "Account" = none := by
        rw [dget_account]; exact List.get?_eq_none.mpr (by omega)
      simp only [makeTxn, h0, hpd, h1, Except.isOk, Except.toBool]
    · have h1 : dget r "Account" = some (r.get ⟨1, by omega⟩) := by
        rw [dget_account]; exact List.get?_eq_get (by omega)
      have h2 : dget r "Amount" = none := by
        rw [dget_amount]; exact List.get?_eq_none.mpr (by omega)
      simp only [makeTxn, h0, hpd, h1, h2, Except.isOk, Except.toBool]
  · have hs : dget r "Settlement Date" = none := by
      rw [dget_settlement]; exact List.get?_eq_none.mpr (by omega)
    obtain ⟨e, he⟩ := collectFieldValues_error_of_missing
      (show "Settlement Date" ∈ ALL_FIELDS by decide) hs
    rw [he]
    rfl

/-- C3 witness: the 17-column sample row is accepted and the generator
succeeds on it (only `Settlement Date` is missing, which the loop body
never touches). -/
theorem claim3_witness :
    acceptRow sampleRow17 = true ∧
    (makeTxn "f.csv" 1 0 sampleRow17).isOk = true :=
  ⟨by decide,
   (claim3_short_rows "f.csv" 1 0 sampleRow17 (by decide)).2.1 (by decide)⟩

/-! ## Claim C4 -/

/-- C4: for every transaction emitted by the generator of an extractor
constructed on the file, `reversed_lineno + total_accepted_count + 1 =
lineno` holds exactly, where the count is `self._row_count`, the eager
accepted-row count taken at construction; `reversed_lineno` is never
positive and `lineno` is the 1-based position among accepted rows. -/
theorem claim4_lineno_invariant (label : String) (file : List (List String)) (pos : Nat)
    (txns : List Transaction) (k : Nat) (t : Transaction)
    (hok : extractOf ((FidelityExtractor.init label ⟨file, pos⟩).1) file = .ok txns)
    (hk : txns.get? k = some t) :
    t.reversed_lineno + ((acceptedRows file).length : Int) + 1 = (t.lineno : Int) ∧
    t.reversed_lineno ≤ 0 ∧
    t.lineno = k + 1 := by
  have hcount : ((FidelityExtractor.init label ⟨file, pos⟩).1).row_count =
      (acceptedRows file).length := rfl
  unfold extractOf at hok
  have hnum := extractTxns_ok_numbering hok hk
  have hlen := extractTxns_ok_length hok
  have hklt : k < txns.length := by
    rcases List.get?_eq_some.mp hk with ⟨hl, _⟩
    exact hl
  rw [hlen] at hklt
  rcases hnum with ⟨hlineno, hrev⟩
  rw [hcount] at hrev
  refine ⟨?_, ?_, by omega⟩
  · rw [hrev, hlineno]
    push_cast
    ring
  · rw [hrev]
    simp only [Nat.zero_add, Nat.cast_ofNat]
    omega

/-- C4 witness: the invariant applied to the first transaction of the
sample extraction (one accepted row, so `lineno = 1` and
`reversed_lineno = -1`). -/
theorem claim4_witness :
    sampleTxn0.reversed_lineno + ((acceptedRows sampleFile).length : Int) + 1 =
      (sampleTxn0.lineno : Int) ∧
    sampleTxn0.reversed_lineno ≤ 0 ∧
    sampleTxn0.lineno = 0 + 1 :=
  claim4_lineno_invariant "f.csv" sampleFile 0 sampleTxns 0 sampleTxn0
    (by rfl) (by rfl)

/-! ## Claim C5 -/

/-- C5: `fingerprint()` pairs the parsed date of the first accepted
row's date field with the SHA-256 hex digest (64 hex characters, i.e. a
256-bit digest) of the concatenated encodings of that row's values for
every schema field in schema order; two files whose first accepted rows
are the same row produce literally the same digest, whatever their
trailing rows or row counts.  (The epoch fallback branch for an
unparseable date is unreachable: the first accepted row's date always
parses, and a `datetime.date` is always truthy.) -/
theorem claim5_fingerprint (l1 l2 : String) (f1 f2 : List (List String))
    (p1 p2 : Nat) (r : List String)
    (h1 : (acceptedRows f1).head? = some r)
    (h2 : (acceptedRows f2).head? = some r)
    (hlen : 18 ≤ r.length) :
    ∃ vals ds d,
      collectFieldValues ALL_FIELDS r = .ok vals ∧
      dget r DATE_FIELD = some ds ∧
      parse_date ds = some d ∧
      fingerprintOf ((FidelityExtractor.init l1 ⟨f1, p1⟩).1) f1 =
        .ok (some ⟨d, sha256hex ((vals.map utf8Bytes).flatten)⟩) ∧
      fingerprintOf ((FidelityExtractor.init l2 ⟨f2, p2⟩).1) f2 =
        .ok (some ⟨d, sha256hex ((vals.map utf8Bytes).flatten)⟩) ∧
      (sha256hex ((vals.map utf8Bytes).flatten)).length = 64 := by
  have hacc := acceptRow_of_head_accepted h1
  obtain ⟨ds, d, h0, hre, hpd⟩ := acceptRow_date hacc
  obtain ⟨vals, hcv⟩ :=
    (collectFieldValues_ok_iff ALL_FIELDS r).mpr (dget_isSome_of_len hlen)
  refine ⟨vals, ds, d, hcv, h0, hpd, ?_, ?_, sha256hex_length _⟩
  · show fingerprintRows ALL_FIELDS (acceptedRows f1) = _
    simp [fingerprintRows, h1, hcv, h0, hpd, pyDateTruthy]
  · show fingerprintRows ALL_FIELDS (acceptedRows f2) = _
    simp [fingerprintRows, h2, hcv, h0, hpd, pyDateTruthy]

/-- C5 witness: the sample file (header, data row, disclaimer) and the
file holding only the same data row have the same first accepted row
and hence the same fingerprint digest. -/
theorem claim5_witness :
    ∃ vals ds d,
      collectFieldValues ALL_FIELDS sampleRow18 = .ok vals ∧
      dget sampleRow18 DATE_FIELD = some ds ∧
      parse_date ds = some d ∧
      fingerprintOf ((FidelityExtractor.init "f.csv" ⟨sampleFile, 0⟩).1) sampleFile =
        .ok (some ⟨d, sha256hex ((vals.map utf8Bytes).flatten)⟩) ∧
      fingerprintOf ((FidelityExtractor.init "g.csv" ⟨sampleFile2, 0⟩).1) sampleFile2 =
        .ok (some ⟨d, sha256hex ((vals.map utf8Bytes).flatten)⟩) ∧
      (sha256hex ((vals.map utf8Bytes).flatten)).length = 64 :=
  claim5_fingerprint "f.csv" "g.csv" sampleFile sampleFile2 0 0 sampleRow18
    (by decide) (by decide) (by decide)

/-! ## Claim C10 -/

/-- C10: the transaction sequence is restartable and deterministic:
invoking the generator from any two stream positions over the same
unchanged records yields the same result (the reader always rewinds
first), re-invoking it after a previous traversal reproduces the same
result, and a successful extraction has exactly one transaction per
accepted row. -/
theorem claim10_restartable (e : FidelityExtractor) (recs : List (List String))
    (p1 p2 : Nat) :
    (callRun e ⟨recs, p1⟩).1 = (callRun e ⟨recs, p2⟩).1 ∧
    (callRun e ((callRun e ⟨recs, p1⟩).2)).1 = (callRun e ⟨recs, p1⟩).1 ∧
    (∀ txns, (callRun e ⟨recs, p1⟩).1 = .ok txns →
      txns.length = (acceptedRows recs).length) := by
  refine ⟨rfl, rfl, fun txns h => ?_⟩
  exact extractTxns_ok_length h

/-- C10 witness: two runs of the sample extraction from positions 0 and
2 agree, and the run yields one transaction per accepted row. -/
theorem claim10_witness :
    (callRun sampleExtractor ⟨sampleFile, 0⟩).1 =
      (callRun sampleExtractor ⟨sampleFile, 2⟩).1 ∧
    sampleTxns.length = (acceptedRows sampleFile).length :=
  ⟨(claim10_restartable sampleExtractor sampleFile 0 2).1,
   (claim10_restartable sampleExtractor sampleFile 0 0).2.2 sampleTxns (by rfl)⟩

end Fidelity
